import Mathlib

/-!
Verification of the branch-ENI reclamation and GC3 reconciliation engine.

The definitions below are a shallow embedding of the Go sources:
  * `vpc/service/delete_excess_branches.go` (package `service`): the
    excess-branch reclaimer (`selectAndDeleteExcessBranch` embeds the
    `DELETE ... RETURNING` query of `doDeleteExcessBranches`, the cycle
    function itself, and the backoff loop `deleteExccessBranchesLoop`);
  * the `gc3` package in the same file: the `GC` reconciliation cycle,
    `parseMesosTasksBody` and the source-of-truth dispatch.

Go `time.Duration` values are nanosecond counts, modelled as `Nat`.
Database rows are modelled as lists of records; the deleting SQL query is
translated clause by clause.  Fallible calls return `Except GoError`.
-/

/-- Errors as produced by the Go code: a leaf message, `errors.Wrap`,
a `go-multierror` aggregate, or a context cancellation error. -/
inductive GoError where
  | msg : String → GoError
  | wrap : String → GoError → GoError
  | multi : List GoError → GoError
  | canceled : GoError
deriving Repr

/-- Nanoseconds in a Go `time.Second`. -/
def goSecond : Nat := 1000000000

/-- Nanoseconds in a Go `time.Minute`. -/
def goMinute : Nat := 60 * goSecond

/-- Source constant block of `delete_excess_branches.go`. -/
def warmPoolPerSubnet : Nat := 50

/-- Delay after a cycle that returned an error (`10 * time.Second`). -/
def timeBetweenErrors : Nat := 10 * goSecond

/-- Delay after a cycle that deleted nothing (`2 * time.Minute`). -/
def timeBetweenNoDeletions : Nat := 2 * goMinute

/-- Delay after a cycle that deleted a branch ENI (`5 * time.Second`). -/
def timeBetweenDeletions : Nat := 5 * goSecond

/-- Timeout bounding one reclaim cycle (`30 * time.Second`). -/
def deleteExcessBranchENITimeout : Nat := 30 * goSecond

/-- A row of the `branch_enis` table: auto-increment ordering key `id`,
interface id `branch_eni`, owning `subnet_id`. -/
structure BranchENIRow where
  id : Nat
  branch_eni : String
  subnet_id : String
deriving DecidableEq, Repr

/-- The ledger state visible to one transaction: the `branch_enis` table and
the `branch_eni` column of the `branch_eni_attachments` table. -/
structure DBState where
  branch_enis : List BranchENIRow
  branch_eni_attachments : List String
deriving DecidableEq, Repr

/-- The `WHERE` clause of the inner `SELECT`: the row belongs to the given
subnet and its `branch_eni` is in no attachment row. -/
def isEligible (attachments : List String) (subnetID : String) (r : BranchENIRow) : Bool :=
  r.subnet_id == subnetID && !(attachments.contains r.branch_eni)

/-- Rows of `branch_enis` that satisfy the inner `SELECT`'s `WHERE` clause. -/
def unattachedInSubnet (db : DBState) (subnetID : String) : List BranchENIRow :=
  db.branch_enis.filter (isEligible db.branch_eni_attachments subnetID)

/-- The `ORDER BY id DESC` relation. -/
def idDescRel (a b : BranchENIRow) : Prop := b.id ≤ a.id

instance : DecidableRel idDescRel := fun a b => Nat.decLe b.id a.id

instance : IsTotal BranchENIRow idDescRel := ⟨fun a b => Nat.le_total b.id a.id⟩

instance : IsTrans BranchENIRow idDescRel :=
  ⟨fun _ _ _ hab hbc => Nat.le_trans hbc hab⟩

/-- `ORDER BY id DESC` over a row list. -/
def orderByIdDesc (l : List BranchENIRow) : List BranchENIRow :=
  l.insertionSort idDescRel

/-- The `DELETE ... RETURNING branch_eni` statement of `doDeleteExcessBranches`:
select the eligible row at offset `poolTarget` in `id`-descending order
(`LIMIT 1 OFFSET $2`), delete the rows carrying that `branch_eni`, and return
the deleted interface id; `none` when no row qualified (`sql.ErrNoRows`). -/
def selectAndDeleteExcessBranch (db : DBState) (subnetID : String) (poolTarget : Nat) :
    Option String × DBState :=
  match (orderByIdDesc (unattachedInSubnet db subnetID))[poolTarget]? with
  | none => (none, db)
  | some r =>
    (some r.branch_eni,
     { db with branch_enis := db.branch_enis.filter (fun x => x.branch_eni != r.branch_eni) })

/-- The fields of the EC2 network-interface descriptor that
`doDeleteExcessBranches` inspects: `Ipv6Addresses` and `PrivateIpAddresses`. -/
structure Iface where
  ipv6Addresses : List String
  privateIpAddresses : List String
deriving DecidableEq, Repr

/-- Outcome of `session.DeleteNetworkInterface`, classified as the Go code
classifies it: success, an AWS error with code
`InvalidNetworkInterfaceIDNotFound`, or any other error. -/
inductive DeleteNetworkInterfaceResult where
  | ok : DeleteNetworkInterfaceResult
  | notFoundErr : DeleteNetworkInterfaceResult
  | otherErr : GoError → DeleteNetworkInterfaceResult

/-- An EC2 session scoped to an account and region, reduced to the two calls
`doDeleteExcessBranches` makes on it. -/
structure CloudSession where
  getNetworkInterfaceByID : String → Except GoError Iface
  deleteNetworkInterface : String → DeleteNetworkInterfaceResult

/-- The `subnet` record scanned by `getSubnets`. -/
structure Subnet where
  az : String
  vpcID : String
  accountID : String
  subnetID : String
  cidr : String
  region : String

/-- The pair returned by `doDeleteExcessBranches` (`branchesDeleted`, `err`)
together with the ledger state left committed by the call. -/
structure DoDeleteResult where
  branchesDeleted : Bool
  err : Option GoError
  db : DBState

/-- One cycle of `doDeleteExcessBranches` for one subnet, starting from ledger
state `db` with an already-acquired EC2 `session`.  Transaction begin/commit
themselves are modelled as succeeding; every other branch of the Go function is
translated: no eligible row (`sql.ErrNoRows`) returns `(false, nil)` with the
transaction rolled back; a describe failure or a non-empty IPv6 list or more
than one IPv4 address returns an error before `tx.Commit()`, so the ledger is
unchanged; otherwise the transaction commits and the cloud delete runs, with
`InvalidNetworkInterfaceIDNotFound` treated as success and any other failure
returned as an error on top of the committed state. -/
def doDeleteExcessBranches (session : CloudSession) (subnet : Subnet) (db : DBState) :
    DoDeleteResult :=
  let res := selectAndDeleteExcessBranch db subnet.subnetID warmPoolPerSubnet
  match res.1 with
  | none => ⟨false, none, db⟩
  | some branchENI =>
    match session.getNetworkInterfaceByID branchENI with
    | .error e => ⟨false, some (.wrap "Could not describe network interface" e), db⟩
    | .ok iface =>
      if 0 < iface.ipv6Addresses.length then
        ⟨false,
         some (.msg ("Could not GC interface, had " ++ toString iface.ipv6Addresses.length
           ++ " IPv6 addresses still assigned")), db⟩
      else if 1 < iface.privateIpAddresses.length then
        ⟨false,
         some (.msg ("Could not GC interface, had " ++ toString iface.privateIpAddresses.length
           ++ " IPv4 addresses still assigned")), db⟩
      else
        match session.deleteNetworkInterface branchENI with
        | .ok => ⟨true, none, res.2⟩
        | .notFoundErr => ⟨true, none, res.2⟩
        | .otherErr e => ⟨false, some e, res.2⟩

/-- The backoff selection at the top of the `for` loop of
`deleteExccessBranchesLoop`: `timeBetweenErrors` when the cycle returned an
error, else `timeBetweenDeletions` when it deleted a branch, else
`timeBetweenNoDeletions`. -/
def chooseResetTime (err : Option GoError) (branchesDeleted : Bool) : Nat :=
  if err.isSome then timeBetweenErrors
  else if branchesDeleted then timeBetweenDeletions
  else timeBetweenNoDeletions

/-- What happened during one `waitFor` call: the timer elapsed, or the
context was cancelled first. -/
inductive WaitOutcome where
  | elapsed : WaitOutcome
  | canceled : WaitOutcome
deriving DecidableEq, Repr

/-- Modelled from the spec: `waitFor(ctx, duration)` is repository code not
under `src/`.  It sleeps for the duration and returns nil, or returns the
context's error when the context is cancelled first — the only semantics under
which the loop "terminates only when its context is cancelled" (§4.4). -/
def waitFor (w : WaitOutcome) (duration : Nat) : Option GoError :=
  match w, duration with
  | .elapsed, _ => none
  | .canceled, _ => some .canceled

/-- One scheduled iteration of the reclaimer loop: the EC2 session the cycle
runs with, and whether the wait after it elapsed or was cancelled. -/
structure LoopIteration where
  session : CloudSession
  wait : WaitOutcome

/-- The `for` loop of `deleteExccessBranchesLoop`, driven by a finite schedule
of iterations and threading the ledger state through the cycles.  The first
component is `some ret` when the loop returned with the Go `error` value `ret`
(`none` meaning a nil error), and `none` when the schedule ran out with the
loop still running; the second component is the list of `resetTime` values
chosen, in order. -/
def deleteExccessBranchesLoop (subnet : Subnet) :
    List LoopIteration → DBState → Option (Option GoError) × List Nat
  | [], _ => (none, [])
  | it :: rest, db =>
    let r := doDeleteExcessBranches it.session subnet db
    let resetTime := chooseResetTime r.err r.branchesDeleted
    match waitFor it.wait resetTime with
    | some e => (some (some e), [resetTime])
    | none =>
      let tail := deleteExccessBranchesLoop subnet rest r.db
      (tail.1, resetTime :: tail.2)

/-- `n` consecutive reclaim cycles against the same subnet and session,
returning the final committed ledger state. -/
def iterateReclaim (session : CloudSession) (subnet : Subnet) : Nat → DBState → DBState
  | 0, db => db
  | n + 1, db => iterateReclaim session subnet n (doDeleteExcessBranches session subnet db).db

/-- Number of unattached branch interfaces recorded for a subnet. -/
def unattachedCount (db : DBState) (subnetID : String) : Nat :=
  (unattachedInSubnet db subnetID).length

/-- A task entry of the legacy-scheduler (Mesos) state document; only its
`Name` field is read by `parseMesosTasksBody`. -/
structure MesosTask where
  name : String
deriving DecidableEq, Repr

/-- An executor entry of the legacy-scheduler state document. -/
structure MesosExecutor where
  tasks : List MesosTask
deriving DecidableEq, Repr

/-- A framework entry of the legacy-scheduler state document. -/
structure MesosFramework where
  executors : List MesosExecutor
deriving DecidableEq, Repr

/-- The gc3 `State` type: the legacy-scheduler state document after JSON
unmarshalling.  Its declaration is not under `src/`; its shape
(frameworks → executors → tasks → name) is exactly the one
`parseMesosTasksBody` traverses. -/
structure MesosState where
  frameworks : List MesosFramework
deriving DecidableEq, Repr

/-- The inner task loop of `parseMesosTasksBody`: the first task whose name is
the empty string aborts the whole parse with an error; otherwise task names are
collected in order. -/
def collectTasks : List MesosTask → Except GoError (List String)
  | [] => .ok []
  | t :: rest =>
    if t.name = "" then .error (.msg ("Invalid task: " ++ reprStr t))
    else
      match collectTasks rest with
      | .error e => .error e
      | .ok names => .ok (t.name :: names)

/-- The executor loop of `parseMesosTasksBody`. -/
def collectExecutors : List MesosExecutor → Except GoError (List String)
  | [] => .ok []
  | e :: rest =>
    match collectTasks e.tasks with
    | .error err => .error err
    | .ok names =>
      match collectExecutors rest with
      | .error err => .error err
      | .ok names2 => .ok (names ++ names2)

/-- The framework loop of `parseMesosTasksBody`. -/
def collectFrameworks : List MesosFramework → Except GoError (List String)
  | [] => .ok []
  | f :: rest =>
    match collectExecutors f.executors with
    | .error err => .error err
    | .ok names =>
      match collectFrameworks rest with
      | .error err => .error err
      | .ok names2 => .ok (names ++ names2)

/-- `parseMesosTasksBody` after JSON unmarshalling: walk
frameworks → executors → tasks, failing on the first task with an empty name,
otherwise returning every task name in traversal order. -/
def parseMesosTasksBody (state : MesosState) : Except GoError (List String) :=
  collectFrameworks state.frameworks

/-- The assignment record returned by `GetAssignment`; its contents are only
passed through to teardown, so it is reduced to the task id it binds. -/
structure Assignment where
  taskId : String
deriving DecidableEq, Repr

/-- The local network-allocation descriptor produced by
`shared.AssignmentToAllocation`. -/
structure Allocation where
  taskId : String
deriving DecidableEq, Repr

/-- One observable call made by a GC cycle, in order: the `GCV3` RPC, the
`GetAssignment` RPC, the local `container2.TeardownNetwork`, and the
`UnassignIPV3` RPC. -/
inductive GCCall where
  | gcv3 : List String → GCCall
  | getAssignment : String → GCCall
  | teardownNetwork : String → GCCall
  | unassignIP : String → GCCall
deriving DecidableEq, Repr

/-- The gc3 `Args` value. -/
structure Args where
  kubernetesPodsURL : String
  mesosStateURL : String
  sourceOfTruth : String
deriving DecidableEq, Repr

/-- The external world one GC cycle runs against: the instance-identity
provider, the two source-of-truth adapters, the remote allocation service and
the local teardown call.

`kubernetesTasks` stands for the whole orchestrator adapter
(`shared.Get` + `shared.ToPodList` + `shared.PodKey`, code not under `src/`);
`mesosFetch` is, modelled from the spec, `shared.Get` of the legacy-scheduler
state document followed by JSON unmarshalling (both not under `src/`), whose
failure aborts the cycle; `assignmentToAllocation` is
`shared.AssignmentToAllocation` (not under `src/`), a pure translation. -/
structure GCEnv where
  getIdentity : Except GoError String
  kubernetesTasks : String → Except GoError (List String)
  mesosFetch : String → Except GoError MesosState
  gcv3 : List String → Except GoError (List String)
  getAssignment : String → Except GoError Assignment
  assignmentToAllocation : Assignment → Allocation
  teardownNetwork : Allocation → Except GoError Unit
  unassignIP : String → Except GoError Unit

/-- `mesosTasks`: fetch and unmarshal the legacy-scheduler document, then
parse it. -/
def mesosTasks (env : GCEnv) (url : String) : Except GoError (List String) :=
  match env.mesosFetch url with
  | .error e => .error (.wrap "Could not fetch task body from Kubelet" e)
  | .ok state => parseMesosTasksBody state

/-- The `switch args.SourceOfTruth` of `GC` producing `req.RunningTaskIDs`. -/
def gcRunningTasks (env : GCEnv) (args : Args) : Except GoError (List String) :=
  if args.sourceOfTruth = "kubernetes" then env.kubernetesTasks args.kubernetesPodsURL
  else if args.sourceOfTruth = "mesos" then mesosTasks env args.mesosStateURL
  else .error (.msg ("Source of truth \"" ++ args.sourceOfTruth ++ "\" unknown"))

/-- The body of `GC`'s per-assignment loop for one task id: fetch the
assignment, tear down the local network, unassign from the vpc service; the
first failing step yields that step's wrapped error.  Also returns the calls
attempted, in order. -/
def removeOneAssignment (env : GCEnv) (taskID : String) : Option GoError × List GCCall :=
  match env.getAssignment taskID with
  | .error e =>
    (some (.wrap ("Unable to get assignment " ++ taskID) e), [.getAssignment taskID])
  | .ok assignment =>
    let allocation := env.assignmentToAllocation assignment
    match env.teardownNetwork allocation with
    | .error e =>
      (some (.wrap ("Unable to tear down network " ++ taskID) e),
       [.getAssignment taskID, .teardownNetwork taskID])
    | .ok _ =>
      match env.unassignIP taskID with
      | .error e =>
        (some (.wrap ("Unable to unassign from vpc service " ++ taskID) e),
         [.getAssignment taskID, .teardownNetwork taskID, .unassignIP taskID])
      | .ok _ =>
        (none, [.getAssignment taskID, .teardownNetwork taskID, .unassignIP taskID])

/-- The `for _, taskID := range resp.RemovedAssignments` loop: every task id is
processed with `removeOneAssignment`; a failure is appended to the
`multierror` result and processing continues with the next task id. -/
def removeAssignments (env : GCEnv) : List String → List GoError × List GCCall
  | [] => ([], [])
  | taskID :: rest =>
    let one := removeOneAssignment env taskID
    let tail := removeAssignments env rest
    (one.1.toList ++ tail.1, one.2 ++ tail.2)

/-- `multierror.Append` collecting followed by `result.ErrorOrNil()`: nil when
no per-item error was recorded, otherwise the aggregate. -/
def errorOrNil (errs : List GoError) : Option GoError :=
  if errs.isEmpty then none else some (.multi errs)

/-- The gc3 `GC` cycle: get the instance identity, enumerate running tasks
from the configured source of truth, call `GCV3`, then tear down and unassign
each returned stale assignment, aggregating per-item errors.  Returns the Go
`error` result together with the trace of calls made. -/
def GC (env : GCEnv) (args : Args) : Option GoError × List GCCall :=
  match env.getIdentity with
  | .error e => (some (.wrap "Unable to get instance identity" e), [])
  | .ok _ =>
    match gcRunningTasks env args with
    | .error e => (some (.wrap "Could not fetch running tasks" e), [])
    | .ok running =>
      match env.gcv3 running with
      | .error e => (some (.wrap "Cannot call API to perform GC" e), [.gcv3 running])
      | .ok removed =>
        let loopResult := removeAssignments env removed
        (errorOrNil loopResult.1, .gcv3 running :: loopResult.2)

/-! ### Facts about the deleting query -/

theorem length_orderByIdDesc (l : List BranchENIRow) :
    (orderByIdDesc l).length = l.length :=
  (List.perm_insertionSort idDescRel l).length_eq

theorem mem_orderByIdDesc {l : List BranchENIRow} {r : BranchENIRow} :
    r ∈ orderByIdDesc l ↔ r ∈ l :=
  (List.perm_insertionSort idDescRel l).mem_iff

theorem mem_unattachedInSubnet {db : DBState} {subnetID : String} {r : BranchENIRow} :
    r ∈ unattachedInSubnet db subnetID ↔
      r ∈ db.branch_enis ∧ r.subnet_id = subnetID ∧
        r.branch_eni ∉ db.branch_eni_attachments := by
  simp [unattachedInSubnet, isEligible, List.mem_filter, and_assoc]

theorem filter_bne_eq_self {l : List BranchENIRow} {e : String}
    (h : ∀ x ∈ l, x.branch_eni ≠ e) :
    l.filter (fun x => x.branch_eni != e) = l := by
  apply List.filter_eq_self.mpr
  intro a ha
  simpa using h a ha

/-- Deleting by interface id from a table whose interface ids are distinct
removes exactly the one row carrying that id. -/
theorem deleteByENI_spec {l : List BranchENIRow}
    (hnd : l.Pairwise (fun a b => a.branch_eni ≠ b.branch_eni))
    {r : BranchENIRow} (hr : r ∈ l) :
    (l.filter (fun x => x.branch_eni != r.branch_eni)).length + 1 = l.length ∧
      r ∉ l.filter (fun x => x.branch_eni != r.branch_eni) ∧
      ∀ x ∈ l, x ≠ r → x ∈ l.filter (fun x => x.branch_eni != r.branch_eni) := by
  induction l with
  | nil => cases hr
  | cons a t ih =>
    obtain ⟨hhead, htail⟩ := List.pairwise_cons.mp hnd
    rcases List.mem_cons.mp hr with rfl | hrt
    · have hne : ∀ x ∈ t, x.branch_eni ≠ r.branch_eni := fun x hx => (hhead x hx).symm
      have hfilter : (r :: t).filter (fun x => x.branch_eni != r.branch_eni) = t := by
        simp [List.filter_cons, filter_bne_eq_self hne]
      refine ⟨by rw [hfilter]; rfl, ?_, ?_⟩
      · rw [hfilter]
        intro hmem
        exact hhead r hmem rfl
      · intro x hx hxr
        rw [hfilter]
        rcases List.mem_cons.mp hx with rfl | hxt
        · exact absurd rfl hxr
        · exact hxt
    · have har : a.branch_eni ≠ r.branch_eni := hhead r hrt
      have hfilter : (a :: t).filter (fun x => x.branch_eni != r.branch_eni)
          = a :: t.filter (fun x => x.branch_eni != r.branch_eni) := by
        rw [List.filter_cons, if_pos (by simpa using har)]
      obtain ⟨ihlen, ihnotmem, ihmem⟩ := ih htail hrt
      refine ⟨?_, ?_, ?_⟩
      · rw [hfilter]
        simp only [List.length_cons]
        omega
      · rw [hfilter]
        intro hmem
        rcases List.mem_cons.mp hmem with rfl | hmem'
        · exact har rfl
        · exact ihnotmem hmem'
      · intro x hx hxr
        rw [hfilter]
        rcases List.mem_cons.mp hx with rfl | hxt
        · exact List.mem_cons_self _ _
        · exact List.mem_cons_of_mem _ (ihmem x hxt hxr)

theorem select_none_spec {db : DBState} {subnetID : String} {poolTarget : Nat}
    (h : (unattachedInSubnet db subnetID).length ≤ poolTarget) :
    selectAndDeleteExcessBranch db subnetID poolTarget = (none, db) := by
  have hlen : (orderByIdDesc (unattachedInSubnet db subnetID)).length ≤ poolTarget := by
    rw [length_orderByIdDesc]; exact h
  unfold selectAndDeleteExcessBranch
  rw [List.getElem?_eq_none hlen]

theorem select_some_spec {db : DBState} {subnetID : String} {poolTarget : Nat}
    (h : poolTarget < (unattachedInSubnet db subnetID).length) :
    ∃ r : BranchENIRow,
      r ∈ unattachedInSubnet db subnetID ∧
      (orderByIdDesc (unattachedInSubnet db subnetID))[poolTarget]? = some r ∧
      selectAndDeleteExcessBranch db subnetID poolTarget =
        (some r.branch_eni,
         { db with branch_enis :=
             db.branch_enis.filter (fun x => x.branch_eni != r.branch_eni) }) := by
  have hlt : poolTarget < (orderByIdDesc (unattachedInSubnet db subnetID)).length := by
    rw [length_orderByIdDesc]; exact h
  refine ⟨(orderByIdDesc (unattachedInSubnet db subnetID))[poolTarget], ?_, ?_, ?_⟩
  · exact mem_orderByIdDesc.mp (List.getElem_mem hlt)
  · exact List.getElem?_eq_getElem hlt
  · unfold selectAndDeleteExcessBranch
    rw [List.getElem?_eq_getElem hlt]

/-- In an `id`-descending sorted list with distinct ids, the element at
position `p` has exactly `p` elements with a larger id. -/
theorem sorted_skip_count {s : List BranchENIRow} {p : Nat} {r : BranchENIRow}
    (hsorted : s.Pairwise idDescRel)
    (hnd : s.Pairwise (fun a b => a.id ≠ b.id))
    (hget : s[p]? = some r) :
    (s.filter (fun x => r.id < x.id)).length = p := by
  obtain ⟨hlt, hgetElem⟩ := List.getElem?_eq_some_iff.mp hget
  have hsplit : s = s.take p ++ r :: s.drop (p + 1) := by
    conv_lhs => rw [← List.take_append_drop p s]
    rw [List.drop_eq_getElem_cons hlt, hgetElem]
  rw [hsplit] at hsorted hnd
  rw [List.pairwise_append] at hsorted hnd
  obtain ⟨-, hsorted_cons, hrel⟩ := hsorted
  obtain ⟨-, -, hrelne⟩ := hnd
  have htake : ∀ x ∈ s.take p, decide (r.id < x.id) = true := by
    intro x hx
    have h1 : idDescRel x r := hrel x hx r (List.mem_cons_self _ _)
    have h2 : x.id ≠ r.id := hrelne x hx r (List.mem_cons_self _ _)
    simpa using Nat.lt_of_le_of_ne h1 (Ne.symm h2)
  have hdrop : ∀ x ∈ s.drop (p + 1), ¬(r.id < x.id) := by
    intro x hx
    exact Nat.not_lt.mpr (List.rel_of_pairwise_cons hsorted_cons hx)
  calc (s.filter (fun x => r.id < x.id)).length
      = ((s.take p ++ r :: s.drop (p + 1)).filter (fun x => r.id < x.id)).length := by
        rw [← hsplit]
    _ = p := by
        have h1 : (s.take p).filter (fun x => r.id < x.id) = s.take p :=
          List.filter_eq_self.mpr htake
        have h2 : (r :: s.drop (p + 1)).filter (fun x => r.id < x.id) = [] := by
          rw [List.filter_eq_nil_iff]
          intro a ha
          rcases List.mem_cons.mp ha with rfl | ha'
          · simp
          · simp [hdrop a ha']
        rw [List.filter_append, h1, h2, List.append_nil, List.length_take]
        exact Nat.min_eq_left (Nat.le_of_lt hlt)

theorem select_skip_count {db : DBState} {subnetID : String} {poolTarget : Nat}
    (hids : db.branch_enis.Pairwise (fun a b => a.id ≠ b.id))
    {r : BranchENIRow}
    (hget : (orderByIdDesc (unattachedInSubnet db subnetID))[poolTarget]? = some r) :
    ((unattachedInSubnet db subnetID).filter (fun x => r.id < x.id)).length = poolTarget := by
  have hcnd : (unattachedInSubnet db subnetID).Pairwise (fun a b => a.id ≠ b.id) :=
    List.Pairwise.sublist (List.filter_sublist _) hids
  have hperm : List.Perm (orderByIdDesc (unattachedInSubnet db subnetID))
      (unattachedInSubnet db subnetID) :=
    List.perm_insertionSort _ _
  have hsnd : (orderByIdDesc (unattachedInSubnet db subnetID)).Pairwise
      (fun a b => a.id ≠ b.id) :=
    (hperm.pairwise_iff (fun h => Ne.symm h)).mpr hcnd
  have hcount := sorted_skip_count (List.sorted_insertionSort idDescRel _) hsnd hget
  calc ((unattachedInSubnet db subnetID).filter (fun x => r.id < x.id)).length
      = ((orderByIdDesc (unattachedInSubnet db subnetID)).filter
          (fun x => r.id < x.id)).length := (hperm.filter _).length_eq.symm
    _ = poolTarget := hcount

/-- C1: for every subnet id and pool target, `selectAndDeleteExcessBranch`
deletes at most one branch-interface row (exactly one when it returns an id),
and only a row of the given subnet with no attachment row in the transaction's
snapshot, chosen by ordering-key descending after skipping the first
`poolTarget` such rows; it returns `none`, leaving the ledger unchanged,
exactly when no row qualifies.  Interface ids and ordering keys are assumed
column-unique, as the ledger keeps them. -/
theorem selectAndDeleteExcessBranch_spec
    (db : DBState) (subnetID : String) (poolTarget : Nat)
    (hENI : db.branch_enis.Pairwise (fun a b => a.branch_eni ≠ b.branch_eni))
    (hID : db.branch_enis.Pairwise (fun a b => a.id ≠ b.id)) :
    (selectAndDeleteExcessBranch db subnetID poolTarget = (none, db) ↔
        (unattachedInSubnet db subnetID).length ≤ poolTarget) ∧
    (∀ e, (selectAndDeleteExcessBranch db subnetID poolTarget).1 = some e →
      ∃ r ∈ db.branch_enis,
        r.branch_eni = e ∧
        r.subnet_id = subnetID ∧
        r.branch_eni ∉ db.branch_eni_attachments ∧
        ((unattachedInSubnet db subnetID).filter (fun x => r.id < x.id)).length
          = poolTarget ∧
        (selectAndDeleteExcessBranch db subnetID poolTarget).2.branch_eni_attachments
          = db.branch_eni_attachments ∧
        (selectAndDeleteExcessBranch db subnetID poolTarget).2.branch_enis.length + 1
          = db.branch_enis.length ∧
        r ∉ (selectAndDeleteExcessBranch db subnetID poolTarget).2.branch_enis ∧
        (∀ x ∈ db.branch_enis, x ≠ r →
          x ∈ (selectAndDeleteExcessBranch db subnetID poolTarget).2.branch_enis) ∧
        (∀ x ∈ (selectAndDeleteExcessBranch db subnetID poolTarget).2.branch_enis,
          x ∈ db.branch_enis)) := by
  constructor
  · constructor
    · intro heq
      by_contra hgt
      push_neg at hgt
      obtain ⟨r, -, -, hsel⟩ := select_some_spec hgt
      rw [hsel] at heq
      exact Option.noConfusion (congrArg Prod.fst heq)
    · exact select_none_spec
  · intro e he
    by_cases hle : (unattachedInSubnet db subnetID).length ≤ poolTarget
    · rw [select_none_spec hle] at he
      exact Option.noConfusion he
    · push_neg at hle
      obtain ⟨r, hrmem, hget, hsel⟩ := select_some_spec hle
      obtain ⟨hrdb, hrsub, hratt⟩ := mem_unattachedInSubnet.mp hrmem
      have hskip := select_skip_count hID hget
      have hre : r.branch_eni = e := by
        rw [hsel] at he
        exact Option.some.inj he
      obtain ⟨hlen, hnotmem, hmem⟩ := deleteByENI_spec hENI hrdb
      refine ⟨r, hrdb, hre, hrsub, hratt, hskip, ?_, ?_, ?_, ?_, ?_⟩
      · rw [hsel]
      · rw [hsel]
        exact hlen
      · rw [hsel]
        exact hnotmem
      · intro x hx hxr
        rw [hsel]
        exact hmem x hx hxr
      · intro x hx
        rw [hsel] at hx
        exact (List.filter_sublist _).mem hx

/-- Witness for C1 at a concrete two-row ledger with pool target 1: the newer
row is skipped and the older unattached row of the subnet is the one deleted. -/
theorem selectAndDeleteExcessBranch_spec_witness :
    (selectAndDeleteExcessBranch ⟨[⟨1, "a", "s"⟩, ⟨2, "b", "s"⟩], []⟩ "s" 1 =
        (none, ⟨[⟨1, "a", "s"⟩, ⟨2, "b", "s"⟩], []⟩) ↔
      (unattachedInSubnet ⟨[⟨1, "a", "s"⟩, ⟨2, "b", "s"⟩], []⟩ "s").length ≤ 1) ∧
    (∀ e, (selectAndDeleteExcessBranch ⟨[⟨1, "a", "s"⟩, ⟨2, "b", "s"⟩], []⟩ "s" 1).1
        = some e →
      ∃ r ∈ ([⟨1, "a", "s"⟩, ⟨2, "b", "s"⟩] : List BranchENIRow),
        r.branch_eni = e ∧
        r.subnet_id = "s" ∧
        r.branch_eni ∉ ([] : List String) ∧
        ((unattachedInSubnet ⟨[⟨1, "a", "s"⟩, ⟨2, "b", "s"⟩], []⟩ "s").filter
            (fun x => r.id < x.id)).length = 1 ∧
        (selectAndDeleteExcessBranch
            ⟨[⟨1, "a", "s"⟩, ⟨2, "b", "s"⟩], []⟩ "s" 1).2.branch_eni_attachments = [] ∧
        (selectAndDeleteExcessBranch
            ⟨[⟨1, "a", "s"⟩, ⟨2, "b", "s"⟩], []⟩ "s" 1).2.branch_enis.length + 1 = 2 ∧
        r ∉ (selectAndDeleteExcessBranch
            ⟨[⟨1, "a", "s"⟩, ⟨2, "b", "s"⟩], []⟩ "s" 1).2.branch_enis ∧
        (∀ x ∈ ([⟨1, "a", "s"⟩, ⟨2, "b", "s"⟩] : List BranchENIRow), x ≠ r →
          x ∈ (selectAndDeleteExcessBranch
            ⟨[⟨1, "a", "s"⟩, ⟨2, "b", "s"⟩], []⟩ "s" 1).2.branch_enis) ∧
        (∀ x ∈ (selectAndDeleteExcessBranch
            ⟨[⟨1, "a", "s"⟩, ⟨2, "b", "s"⟩], []⟩ "s" 1).2.branch_enis,
          x ∈ ([⟨1, "a", "s"⟩, ⟨2, "b", "s"⟩] : List BranchENIRow))) :=
  selectAndDeleteExcessBranch_spec ⟨[⟨1, "a", "s"⟩, ⟨2, "b", "s"⟩], []⟩ "s" 1
    (by decide) (by decide)

/-! ### Backoff constants and delay selection -/

/-- C7 counterexample: the claimed ordering
`timeBetweenErrors < timeBetweenDeletions < timeBetweenNoDeletions` fails on
the source constants, which set `timeBetweenErrors` to 10s and
`timeBetweenDeletions` to 5s. -/
theorem delayConstants_claimed_order_false :
    ¬(timeBetweenErrors < timeBetweenDeletions ∧
      timeBetweenDeletions < timeBetweenNoDeletions) := by
  decide

/-- C7 (amended): the source orders the three delays with
`timeBetweenDeletions` (5s) the shortest, `timeBetweenErrors` (10s) the
medium, and `timeBetweenNoDeletions` (2m) the longest. -/
theorem delayConstants_order :
    timeBetweenDeletions < timeBetweenErrors ∧
      timeBetweenErrors < timeBetweenNoDeletions := by
  decide

/-- C8: the delay chosen before the next loop iteration is determined by the
cycle's outcome — `timeBetweenErrors` after an error, `timeBetweenDeletions`
after a deleting cycle, `timeBetweenNoDeletions` after an idle cycle — and the
loop waits exactly that long after running the cycle. -/
theorem chooseResetTime_spec (err : Option GoError) (branchesDeleted : Bool)
    (subnet : Subnet) (it : LoopIteration) (rest : List LoopIteration) (db : DBState) :
    (err.isSome = true → chooseResetTime err branchesDeleted = timeBetweenErrors) ∧
    (err = none → branchesDeleted = true →
      chooseResetTime err branchesDeleted = timeBetweenDeletions) ∧
    (err = none → branchesDeleted = false →
      chooseResetTime err branchesDeleted = timeBetweenNoDeletions) ∧
    (deleteExccessBranchesLoop subnet (it :: rest) db).2.head? =
      some (chooseResetTime (doDeleteExcessBranches it.session subnet db).err
        (doDeleteExcessBranches it.session subnet db).branchesDeleted) := by
  refine ⟨?_, ?_, ?_, ?_⟩
  · intro h
    simp [chooseResetTime, h]
  · intro h hb
    simp [chooseResetTime, h, hb]
  · intro h hb
    simp [chooseResetTime, h, hb]
  · show (deleteExccessBranchesLoop subnet (it :: rest) db).2.head? = _
    unfold deleteExccessBranchesLoop
    cases hw : waitFor it.wait (chooseResetTime
        (doDeleteExcessBranches it.session subnet db).err
        (doDeleteExcessBranches it.session subnet db).branchesDeleted) with
    | none => simp [hw]
    | some e => simp [hw]

/-- Witness for C8 at the three concrete outcomes and a one-iteration loop. -/
theorem chooseResetTime_spec_witness :
    (chooseResetTime (some (.msg "boom")) false = timeBetweenErrors) ∧
    (chooseResetTime none true = timeBetweenDeletions) ∧
    (chooseResetTime none false = timeBetweenNoDeletions) ∧
    (deleteExccessBranchesLoop ⟨"az", "vpc", "acct", "s", "cidr", "r"⟩
        [⟨⟨fun _ => .ok ⟨[], []⟩, fun _ => .ok⟩, .elapsed⟩] ⟨[], []⟩).2.head? =
      some (chooseResetTime
        (doDeleteExcessBranches ⟨fun _ => .ok ⟨[], []⟩, fun _ => .ok⟩
          ⟨"az", "vpc", "acct", "s", "cidr", "r"⟩ ⟨[], []⟩).err
        (doDeleteExcessBranches ⟨fun _ => .ok ⟨[], []⟩, fun _ => .ok⟩
          ⟨"az", "vpc", "acct", "s", "cidr", "r"⟩ ⟨[], []⟩).branchesDeleted) :=
  ⟨(chooseResetTime_spec (some (.msg "boom")) false ⟨"az", "vpc", "acct", "s", "cidr", "r"⟩
      ⟨⟨fun _ => .ok ⟨[], []⟩, fun _ => .ok⟩, .elapsed⟩ [] ⟨[], []⟩).1 rfl,
   (chooseResetTime_spec none true ⟨"az", "vpc", "acct", "s", "cidr", "r"⟩
      ⟨⟨fun _ => .ok ⟨[], []⟩, fun _ => .ok⟩, .elapsed⟩ [] ⟨[], []⟩).2.1 rfl rfl,
   (chooseResetTime_spec none false ⟨"az", "vpc", "acct", "s", "cidr", "r"⟩
      ⟨⟨fun _ => .ok ⟨[], []⟩, fun _ => .ok⟩, .elapsed⟩ [] ⟨[], []⟩).2.2.1 rfl rfl,
   (chooseResetTime_spec none false ⟨"az", "vpc", "acct", "s", "cidr", "r"⟩
      ⟨⟨fun _ => .ok ⟨[], []⟩, fun _ => .ok⟩, .elapsed⟩ [] ⟨[], []⟩).2.2.2⟩

/-! ### The reclaim cycle around the deleting transaction -/

/-- A sample ledger holding 51 unattached interfaces in subnet `"s"`, one more
than the warm-pool target, with ids 50 down to 0. -/
def sampleWarmLedger : DBState :=
  ⟨(List.range 51).map (fun i => ⟨50 - i, toString (50 - i), "s"⟩), []⟩

/-- A sample subnet work item for subnet id `"s"`. -/
def sampleSubnet : Subnet := ⟨"az", "vpc", "acct", "s", "cidr", "region"⟩

/-- C3: when a candidate row was deleted inside the transaction and the cloud
describe of that interface reports at least one IPv6 address or more than one
IPv4 address, `doDeleteExcessBranches` returns an error without committing:
the ledger is unchanged and the selected branch-interface row still exists. -/
theorem doDeleteExcessBranches_consistency_abort
    (session : CloudSession) (subnet : Subnet) (db : DBState) (eni : String)
    (iface : Iface)
    (hsel : (selectAndDeleteExcessBranch db subnet.subnetID warmPoolPerSubnet).1 = some eni)
    (hdesc : session.getNetworkInterfaceByID eni = .ok iface)
    (hbad : 0 < iface.ipv6Addresses.length ∨ 1 < iface.privateIpAddresses.length) :
    (doDeleteExcessBranches session subnet db).err.isSome = true ∧
    (doDeleteExcessBranches session subnet db).branchesDeleted = false ∧
    (doDeleteExcessBranches session subnet db).db = db ∧
    ∃ r ∈ (doDeleteExcessBranches session subnet db).db.branch_enis,
      r.branch_eni = eni := by
  have hexists : ∃ r ∈ db.branch_enis, r.branch_eni = eni := by
    by_cases hle : (unattachedInSubnet db subnet.subnetID).length ≤ warmPoolPerSubnet
    · rw [select_none_spec hle] at hsel
      exact Option.noConfusion hsel
    · push_neg at hle
      obtain ⟨r, hrmem, -, hseleq⟩ := select_some_spec hle
      rw [hseleq] at hsel
      exact ⟨r, (mem_unattachedInSubnet.mp hrmem).1, Option.some.inj hsel⟩
  have hout : (doDeleteExcessBranches session subnet db).err.isSome = true ∧
      (doDeleteExcessBranches session subnet db).branchesDeleted = false ∧
      (doDeleteExcessBranches session subnet db).db = db := by
    simp only [doDeleteExcessBranches, hsel, hdesc]
    by_cases h6 : 0 < iface.ipv6Addresses.length
    · rw [if_pos h6]
      exact ⟨rfl, rfl, rfl⟩
    · rw [if_neg h6]
      have h4 : 1 < iface.privateIpAddresses.length := hbad.resolve_left h6
      rw [if_pos h4]
      exact ⟨rfl, rfl, rfl⟩
  exact ⟨hout.1, hout.2.1, hout.2.2, by rw [hout.2.2]; exact hexists⟩

/-- Witness for C3: with 51 unattached rows, row `"0"` is selected and the
describe shows a leftover IPv6 address, so the cycle errors with the ledger
untouched. -/
theorem doDeleteExcessBranches_consistency_abort_witness :
    (doDeleteExcessBranches ⟨fun _ => .ok ⟨["addr6"], []⟩, fun _ => .ok⟩
        sampleSubnet sampleWarmLedger).err.isSome = true ∧
    (doDeleteExcessBranches ⟨fun _ => .ok ⟨["addr6"], []⟩, fun _ => .ok⟩
        sampleSubnet sampleWarmLedger).branchesDeleted = false ∧
    (doDeleteExcessBranches ⟨fun _ => .ok ⟨["addr6"], []⟩, fun _ => .ok⟩
        sampleSubnet sampleWarmLedger).db = sampleWarmLedger ∧
    ∃ r ∈ (doDeleteExcessBranches ⟨fun _ => .ok ⟨["addr6"], []⟩, fun _ => .ok⟩
        sampleSubnet sampleWarmLedger).db.branch_enis,
      r.branch_eni = "0" :=
  doDeleteExcessBranches_consistency_abort
    ⟨fun _ => .ok ⟨["addr6"], []⟩, fun _ => .ok⟩ sampleSubnet sampleWarmLedger
    "0" ⟨["addr6"], []⟩ (by decide) rfl (Or.inl (by decide))

/-- C4: after the ledger transaction has committed, a cloud delete failure
with the interface-not-found code yields overall success (`deleted = true`,
nil error), while any other cloud delete failure yields an error with the
ledger deletion left committed, not rolled back. -/
theorem doDeleteExcessBranches_after_commit
    (session : CloudSession) (subnet : Subnet) (db : DBState) (eni : String)
    (iface : Iface)
    (hsel : (selectAndDeleteExcessBranch db subnet.subnetID warmPoolPerSubnet).1 = some eni)
    (hdesc : session.getNetworkInterfaceByID eni = .ok iface)
    (h6 : iface.ipv6Addresses.length = 0)
    (h4 : iface.privateIpAddresses.length ≤ 1) :
    (session.deleteNetworkInterface eni = .notFoundErr →
      doDeleteExcessBranches session subnet db =
        ⟨true, none, (selectAndDeleteExcessBranch db subnet.subnetID warmPoolPerSubnet).2⟩) ∧
    (∀ e, session.deleteNetworkInterface eni = .otherErr e →
      doDeleteExcessBranches session subnet db =
        ⟨false, some e,
          (selectAndDeleteExcessBranch db subnet.subnetID warmPoolPerSubnet).2⟩) := by
  constructor
  · intro hdel
    simp only [doDeleteExcessBranches, hsel, hdesc, hdel]
    rw [if_neg (by omega), if_neg (by omega)]
  · intro e hdel
    simp only [doDeleteExcessBranches, hsel, hdesc, hdel]
    rw [if_neg (by omega), if_neg (by omega)]

/-- Witness for C4 at the 51-row ledger: a not-found cloud delete is overall
success; a throttling cloud delete is an error on top of the committed
deletion. -/
theorem doDeleteExcessBranches_after_commit_witness :
    (doDeleteExcessBranches ⟨fun _ => .ok ⟨[], ["primary"]⟩, fun _ => .notFoundErr⟩
        sampleSubnet sampleWarmLedger =
      ⟨true, none,
        (selectAndDeleteExcessBranch sampleWarmLedger sampleSubnet.subnetID
          warmPoolPerSubnet).2⟩) ∧
    (doDeleteExcessBranches
        ⟨fun _ => .ok ⟨[], ["primary"]⟩, fun _ => .otherErr (.msg "throttled")⟩
        sampleSubnet sampleWarmLedger =
      ⟨false, some (.msg "throttled"),
        (selectAndDeleteExcessBranch sampleWarmLedger sampleSubnet.subnetID
          warmPoolPerSubnet).2⟩) :=
  ⟨(doDeleteExcessBranches_after_commit
      ⟨fun _ => .ok ⟨[], ["primary"]⟩, fun _ => .notFoundErr⟩
      sampleSubnet sampleWarmLedger "0" ⟨[], ["primary"]⟩
      (by decide) rfl rfl (by decide)).1 rfl,
   (doDeleteExcessBranches_after_commit
      ⟨fun _ => .ok ⟨[], ["primary"]⟩, fun _ => .otherErr (.msg "throttled")⟩
      sampleSubnet sampleWarmLedger "0" ⟨[], ["primary"]⟩
      (by decide) rfl rfl (by decide)).2 (.msg "throttled") rfl⟩

/-! ### Convergence of repeated reclaim cycles -/

/-- The deleting query never grows the table and never touches attachments. -/
theorem select_snd_sublist (db : DBState) (subnetID : String) (p : Nat) :
    List.Sublist (selectAndDeleteExcessBranch db subnetID p).2.branch_enis db.branch_enis ∧
    (selectAndDeleteExcessBranch db subnetID p).2.branch_eni_attachments =
      db.branch_eni_attachments := by
  rcases h : (orderByIdDesc (unattachedInSubnet db subnetID))[p]? with - | r
  all_goals simp only [selectAndDeleteExcessBranch, h]
  · exact ⟨List.Sublist.refl _, trivial⟩
  · exact ⟨List.filter_sublist _, trivial⟩

/-- One reclaim cycle leaves the ledger unchanged, or — only with strictly
more than `warmPoolPerSubnet` unattached rows — commits the deleting query. -/
theorem doDelete_db_cases (session : CloudSession) (subnet : Subnet) (db : DBState) :
    (doDeleteExcessBranches session subnet db).db = db ∨
    (warmPoolPerSubnet < (unattachedInSubnet db subnet.subnetID).length ∧
      (doDeleteExcessBranches session subnet db).db =
        (selectAndDeleteExcessBranch db subnet.subnetID warmPoolPerSubnet).2) := by
  by_cases hle : (unattachedInSubnet db subnet.subnetID).length ≤ warmPoolPerSubnet
  · left
    simp only [doDeleteExcessBranches, select_none_spec hle]
  · push_neg at hle
    obtain ⟨r, -, -, hseleq⟩ := select_some_spec hle
    cases hdesc : session.getNetworkInterfaceByID r.branch_eni with
    | error e =>
      left
      simp only [doDeleteExcessBranches, hseleq, hdesc]
    | ok iface =>
      by_cases h6 : 0 < iface.ipv6Addresses.length
      · left
        simp only [doDeleteExcessBranches, hseleq, hdesc]
        rw [if_pos h6]
      · by_cases h4 : 1 < iface.privateIpAddresses.length
        · left
          simp only [doDeleteExcessBranches, hseleq, hdesc]
          rw [if_neg h6, if_pos h4]
        · right
          refine ⟨hle, ?_⟩
          simp only [doDeleteExcessBranches, hseleq, hdesc]
          rw [if_neg h6, if_neg h4]
          cases hdel : session.deleteNetworkInterface r.branch_eni <;> simp only [hdel]

/-- One reclaim cycle only ever removes ledger rows and never edits the
attachment table. -/
theorem doDelete_db_sublist (session : CloudSession) (subnet : Subnet) (db : DBState) :
    List.Sublist (doDeleteExcessBranches session subnet db).db.branch_enis db.branch_enis ∧
    (doDeleteExcessBranches session subnet db).db.branch_eni_attachments =
      db.branch_eni_attachments := by
  rcases doDelete_db_cases session subnet db with h | ⟨-, h⟩
  · rw [h]
    exact ⟨List.Sublist.refl _, rfl⟩
  · rw [h]
    exact select_snd_sublist db subnet.subnetID warmPoolPerSubnet

/-- A committed deleting query removes exactly one unattached row of the
subnet from the candidate set. -/
theorem count_after_select {db : DBState} {subnetID : String} {p : Nat}
    (hENI : db.branch_enis.Pairwise (fun a b => a.branch_eni ≠ b.branch_eni))
    (h : p < (unattachedInSubnet db subnetID).length) :
    (unattachedInSubnet (selectAndDeleteExcessBranch db subnetID p).2 subnetID).length + 1 =
      (unattachedInSubnet db subnetID).length := by
  obtain ⟨r, hrmem, -, hseleq⟩ := select_some_spec h
  rw [hseleq]
  have hcomm : unattachedInSubnet
      ⟨db.branch_enis.filter (fun x => x.branch_eni != r.branch_eni),
        db.branch_eni_attachments⟩ subnetID
      = (unattachedInSubnet db subnetID).filter
          (fun x => x.branch_eni != r.branch_eni) := by
    show (db.branch_enis.filter (fun x => x.branch_eni != r.branch_eni)).filter
        (isEligible db.branch_eni_attachments subnetID)
      = (db.branch_enis.filter (isEligible db.branch_eni_attachments subnetID)).filter
          (fun x => x.branch_eni != r.branch_eni)
    rw [List.filter_filter, List.filter_filter]
    exact List.filter_congr (fun a _ => Bool.and_comm _ _)
  show (unattachedInSubnet
      ⟨db.branch_enis.filter (fun x => x.branch_eni != r.branch_eni),
        db.branch_eni_attachments⟩ subnetID).length + 1
    = (unattachedInSubnet db subnetID).length
  rw [hcomm]
  have hpair : (unattachedInSubnet db subnetID).Pairwise
      (fun a b => a.branch_eni ≠ b.branch_eni) :=
    List.Pairwise.sublist (List.filter_sublist _) hENI
  exact (deleteByENI_spec hpair hrmem).1

/-- A session whose interface descriptors are always clean: no IPv6 address
and at most the primary IPv4 address. -/
def describesClean (session : CloudSession) : Prop :=
  ∀ eni, ∃ iface, session.getNetworkInterfaceByID eni = Except.ok iface ∧
    iface.ipv6Addresses.length = 0 ∧ iface.privateIpAddresses.length ≤ 1

/-- With clean cloud descriptors, one cycle either keeps the unattached count
(at or below target) or decrements it by exactly one (above target). -/
theorem doDelete_count (session : CloudSession) (subnet : Subnet) (db : DBState)
    (hENI : db.branch_enis.Pairwise (fun a b => a.branch_eni ≠ b.branch_eni))
    (hgood : describesClean session) :
    unattachedCount (doDeleteExcessBranches session subnet db).db subnet.subnetID =
      if unattachedCount db subnet.subnetID ≤ warmPoolPerSubnet
      then unattachedCount db subnet.subnetID
      else unattachedCount db subnet.subnetID - 1 := by
  by_cases hle : unattachedCount db subnet.subnetID ≤ warmPoolPerSubnet
  · rw [if_pos hle]
    have hdb : (doDeleteExcessBranches session subnet db).db = db := by
      simp only [doDeleteExcessBranches, select_none_spec hle]
    rw [hdb]
  · rw [if_neg hle]
    push_neg at hle
    obtain ⟨r, hrmem, -, hseleq⟩ := select_some_spec hle
    obtain ⟨iface, hdesc, h6, h4⟩ := hgood r.branch_eni
    have hdb : (doDeleteExcessBranches session subnet db).db =
        (selectAndDeleteExcessBranch db subnet.subnetID warmPoolPerSubnet).2 := by
      simp only [doDeleteExcessBranches, hseleq, hdesc]
      rw [if_neg (by omega), if_neg (by omega)]
      cases hdel : session.deleteNetworkInterface r.branch_eni <;> simp only [hdel]
    rw [hdb]
    have hdec := count_after_select hENI hle
    simp only [unattachedCount] at *
    omega

/-- Closed form for the unattached count after `n` reclaim cycles with clean
cloud descriptors. -/
theorem iterate_count (session : CloudSession) (subnet : Subnet)
    (hgood : describesClean session) (n : Nat) :
    ∀ db : DBState,
      db.branch_enis.Pairwise (fun a b => a.branch_eni ≠ b.branch_eni) →
      unattachedCount (iterateReclaim session subnet n db) subnet.subnetID =
        max (min (unattachedCount db subnet.subnetID) warmPoolPerSubnet)
          (unattachedCount db subnet.subnetID - n) := by
  induction n with
  | zero =>
    intro db _
    simp only [iterateReclaim]
    omega
  | succ n ih =>
    intro db hENI
    simp only [iterateReclaim]
    have hpair : (doDeleteExcessBranches session subnet db).db.branch_enis.Pairwise
        (fun a b => a.branch_eni ≠ b.branch_eni) :=
      List.Pairwise.sublist (doDelete_db_sublist session subnet db).1 hENI
    rw [ih _ hpair, doDelete_count session subnet db hENI hgood]
    by_cases hle : unattachedCount db subnet.subnetID ≤ warmPoolPerSubnet
    · rw [if_pos hle]
      omega
    · rw [if_neg hle]
      omega

/-- C2: a reclaim cycle never brings the unattached count of a subnet below
`warmPoolPerSubnet` — a delete only happens when strictly more than
`warmPoolPerSubnet` unattached rows exist — and, with clean cloud
descriptors, `n` repeated cycles leave exactly
`max (min c warmPoolPerSubnet) (c - n)` unattached interfaces, so a subnet
starting above the target converges to exactly `warmPoolPerSubnet` and never
fewer. -/
theorem reclaim_convergence (session : CloudSession) (subnet : Subnet)
    (db : DBState) (n : Nat)
    (hENI : db.branch_enis.Pairwise (fun a b => a.branch_eni ≠ b.branch_eni))
    (hgood : describesClean session) :
    (∀ s' : CloudSession,
      min (unattachedCount db subnet.subnetID) warmPoolPerSubnet ≤
        unattachedCount (doDeleteExcessBranches s' subnet db).db subnet.subnetID) ∧
    (∀ s' : CloudSession, unattachedCount db subnet.subnetID ≤ warmPoolPerSubnet →
      (doDeleteExcessBranches s' subnet db).db = db) ∧
    unattachedCount (iterateReclaim session subnet n db) subnet.subnetID =
      max (min (unattachedCount db subnet.subnetID) warmPoolPerSubnet)
        (unattachedCount db subnet.subnetID - n) := by
  refine ⟨?_, ?_, iterate_count session subnet hgood n db hENI⟩
  · intro sAny
    rcases doDelete_db_cases sAny subnet db with h | ⟨hgt, h⟩
    · rw [h]
      omega
    · rw [h]
      have hdec := count_after_select hENI hgt
      simp only [unattachedCount] at *
      omega
  · intro sAny hle
    simp only [doDeleteExcessBranches, select_none_spec hle]

/-- Witness for C2 at the 51-row ledger: even a describe-failing session
cannot push the count below target, and two clean cycles converge from 51 to
exactly 50 unattached interfaces. -/
theorem reclaim_convergence_witness :
    (min (unattachedCount sampleWarmLedger sampleSubnet.subnetID) warmPoolPerSubnet ≤
      unattachedCount
        (doDeleteExcessBranches ⟨fun _ => .error (.msg "throttled"), fun _ => .ok⟩
          sampleSubnet sampleWarmLedger).db sampleSubnet.subnetID) ∧
    unattachedCount
        (iterateReclaim ⟨fun _ => .ok ⟨[], ["primary"]⟩, fun _ => .ok⟩
          sampleSubnet 2 sampleWarmLedger) sampleSubnet.subnetID =
      max (min (unattachedCount sampleWarmLedger sampleSubnet.subnetID) warmPoolPerSubnet)
        (unattachedCount sampleWarmLedger sampleSubnet.subnetID - 2) :=
  ⟨(reclaim_convergence ⟨fun _ => .ok ⟨[], ["primary"]⟩, fun _ => .ok⟩
      sampleSubnet sampleWarmLedger 2 (by decide)
      (fun _ => ⟨⟨[], ["primary"]⟩, rfl, rfl, by decide⟩)).1
      ⟨fun _ => .error (.msg "throttled"), fun _ => .ok⟩,
   (reclaim_convergence ⟨fun _ => .ok ⟨[], ["primary"]⟩, fun _ => .ok⟩
      sampleSubnet sampleWarmLedger 2 (by decide)
      (fun _ => ⟨⟨[], ["primary"]⟩, rfl, rfl, by decide⟩)).2.2⟩

/-! ### GC3 reconciliation -/

/-- The per-assignment loop processes every task id independently: the
aggregated errors are exactly the per-item errors and the call trace is the
concatenation of the per-item traces, in task order. -/
theorem removeAssignments_eq (env : GCEnv) (tasks : List String) :
    removeAssignments env tasks =
      (tasks.filterMap (fun t => (removeOneAssignment env t).1),
       tasks.flatMap (fun t => (removeOneAssignment env t).2)) := by
  induction tasks with
  | nil => rfl
  | cons t rest ih =>
    simp only [removeAssignments, ih, List.flatMap_cons, List.filterMap_cons]
    cases (removeOneAssignment env t).1 <;> simp [Option.toList]

/-- A task id whose three steps all succeed has attempted and completed the
teardown and unassign calls. -/
theorem removeOne_success_calls (env : GCEnv) (t : String)
    (h : (removeOneAssignment env t).1 = none) :
    (removeOneAssignment env t).2 =
      [.getAssignment t, .teardownNetwork t, .unassignIP t] := by
  rcases hga : env.getAssignment t with e | assignment
  · simp [removeOneAssignment, hga] at h
  · rcases htd : env.teardownNetwork (env.assignmentToAllocation assignment) with e | u
    · simp [removeOneAssignment, hga, htd] at h
    · rcases hun : env.unassignIP t with e | u2
      · simp [removeOneAssignment, hga, htd, hun] at h
      · simp [removeOneAssignment, hga, htd, hun]

/-- C5: for every stale-assignment list returned by `GCV3`, `GC` processes
each task id independently — per-item failures are recorded and the next task
id is still processed; all per-item errors are aggregated into one
multi-error; task ids whose steps all succeeded were fully torn down and
unassigned even when the cycle returns an error; and an empty stale list
yields a nil error with no per-item work. -/
theorem GC_per_item_spec (env : GCEnv) (args : Args) (ident : String)
    (running removed : List String)
    (hid : env.getIdentity = .ok ident)
    (hrun : gcRunningTasks env args = .ok running)
    (hgc : env.gcv3 running = .ok removed) :
    (GC env args =
      (errorOrNil (removed.filterMap (fun t => (removeOneAssignment env t).1)),
       .gcv3 running :: removed.flatMap (fun t => (removeOneAssignment env t).2))) ∧
    (∀ t ∈ removed, (removeOneAssignment env t).1 = none →
      GCCall.teardownNetwork t ∈ (GC env args).2 ∧
      GCCall.unassignIP t ∈ (GC env args).2) ∧
    (removed = [] → GC env args = (none, [.gcv3 running])) := by
  have hmain : GC env args =
      (errorOrNil (removed.filterMap (fun t => (removeOneAssignment env t).1)),
       .gcv3 running :: removed.flatMap (fun t => (removeOneAssignment env t).2)) := by
    simp only [GC, hid, hrun, hgc, removeAssignments_eq]
  refine ⟨hmain, ?_, ?_⟩
  · intro t ht hok
    rw [hmain]
    have hcalls := removeOne_success_calls env t hok
    constructor
    · exact List.mem_cons_of_mem _ (List.mem_flatMap.mpr
        ⟨t, ht, by rw [hcalls]; simp⟩)
    · exact List.mem_cons_of_mem _ (List.mem_flatMap.mpr
        ⟨t, ht, by rw [hcalls]; simp⟩)
  · intro hempty
    rw [hmain, hempty]
    rfl

/-- A GC environment in which the orchestrator reports tasks `A`,`B`, the
remote service flags `C` and `D` as stale, and local teardown fails for `C`
but succeeds for `D`. -/
def sampleGCEnv : GCEnv :=
  ⟨.ok "instance",
   fun _ => .ok ["A", "B"],
   fun _ => .ok ⟨[]⟩,
   fun _ => .ok ["C", "D"],
   fun t => .ok ⟨t⟩,
   fun a => ⟨a.taskId⟩,
   fun a => if a.taskId = "C" then .error (.msg "teardown failed") else .ok (),
   fun _ => .ok ()⟩

/-- The same environment with no stale assignments. -/
def sampleGCEnvIdle : GCEnv :=
  ⟨.ok "instance",
   fun _ => .ok ["A", "B"],
   fun _ => .ok ⟨[]⟩,
   fun _ => .ok [],
   fun t => .ok ⟨t⟩,
   fun a => ⟨a.taskId⟩,
   fun a => if a.taskId = "C" then .error (.msg "teardown failed") else .ok (),
   fun _ => .ok ()⟩

/-- Sample GC arguments using the orchestrator source of truth. -/
def sampleGCArgs : Args := ⟨"http://pods", "http://mesos", "kubernetes"⟩

/-- Witness for C5: with stale tasks `C` (teardown fails) and `D` (succeeds),
the cycle aggregates exactly `C`'s error while `D` is torn down and
unassigned, and with no stale assignments the cycle is a nil-error no-op. -/
theorem GC_per_item_spec_witness :
    (GC sampleGCEnv sampleGCArgs =
      (errorOrNil (["C", "D"].filterMap
        (fun t => (removeOneAssignment sampleGCEnv t).1)),
       .gcv3 ["A", "B"] :: ["C", "D"].flatMap
        (fun t => (removeOneAssignment sampleGCEnv t).2))) ∧
    (GCCall.teardownNetwork "D" ∈ (GC sampleGCEnv sampleGCArgs).2 ∧
      GCCall.unassignIP "D" ∈ (GC sampleGCEnv sampleGCArgs).2) ∧
    GC sampleGCEnvIdle sampleGCArgs = (none, [.gcv3 ["A", "B"]]) :=
  ⟨(GC_per_item_spec sampleGCEnv sampleGCArgs "instance" ["A", "B"] ["C", "D"]
      rfl rfl rfl).1,
   (GC_per_item_spec sampleGCEnv sampleGCArgs "instance" ["A", "B"] ["C", "D"]
      rfl rfl rfl).2.1 "D" (by simp) rfl,
   (GC_per_item_spec sampleGCEnvIdle sampleGCArgs "instance" ["A", "B"] []
      rfl rfl rfl).2.2 rfl⟩

/-- An empty task name anywhere in the task list fails the task loop. -/
theorem collectTasks_error {ts : List MesosTask} (h : ∃ t ∈ ts, t.name = "") :
    ∃ e, collectTasks ts = .error e := by
  induction ts with
  | nil => simp at h
  | cons t rest ih =>
    by_cases hname : t.name = ""
    · exact ⟨.msg ("Invalid task: " ++ reprStr t), by simp [collectTasks, hname]⟩
    · obtain ⟨t2, ht2, hname2⟩ := h
      rcases List.mem_cons.mp ht2 with rfl | ht2'
      · exact absurd hname2 hname
      · obtain ⟨e, he⟩ := ih ⟨t2, ht2', hname2⟩
        exact ⟨e, by simp [collectTasks, hname, he]⟩

/-- An empty task name anywhere under an executor list fails the executor
loop. -/
theorem collectExecutors_error {es : List MesosExecutor}
    (h : ∃ ex ∈ es, ∃ t ∈ ex.tasks, t.name = "") :
    ∃ e, collectExecutors es = .error e := by
  induction es with
  | nil => simp at h
  | cons ex rest ih =>
    obtain ⟨ex2, hex2, hbad⟩ := h
    rcases List.mem_cons.mp hex2 with rfl | hex2'
    · obtain ⟨e, he⟩ := collectTasks_error hbad
      exact ⟨e, by simp [collectExecutors, he]⟩
    · cases hts : collectTasks ex.tasks with
      | error e => exact ⟨e, by simp [collectExecutors, hts]⟩
      | ok names =>
        obtain ⟨e, he⟩ := ih ⟨ex2, hex2', hbad⟩
        exact ⟨e, by simp [collectExecutors, hts, he]⟩

/-- An empty task name anywhere in the state document fails the parse. -/
theorem collectFrameworks_error {fs : List MesosFramework}
    (h : ∃ f ∈ fs, ∃ ex ∈ f.executors, ∃ t ∈ ex.tasks, t.name = "") :
    ∃ e, collectFrameworks fs = .error e := by
  induction fs with
  | nil => simp at h
  | cons f rest ih =>
    obtain ⟨f2, hf2, hbad⟩ := h
    rcases List.mem_cons.mp hf2 with rfl | hf2'
    · obtain ⟨e, he⟩ := collectExecutors_error hbad
      exact ⟨e, by simp [collectFrameworks, he]⟩
    · cases hes : collectExecutors f.executors with
      | error e => exact ⟨e, by simp [collectFrameworks, hes]⟩
      | ok names =>
        obtain ⟨e, he⟩ := ih ⟨f2, hf2', hbad⟩
        exact ⟨e, by simp [collectFrameworks, hes, he]⟩

/-- C6: a legacy-scheduler state document containing any task entry with an
empty name makes `parseMesosTasksBody` return an error rather than skipping
the entry, and the GC cycle aborts with that parse error with an empty call
trace — `GCV3`, `GetAssignment` and `UnassignIPV3` are never invoked. -/
theorem GC_mesos_empty_name_aborts (env : GCEnv) (args : Args)
    (st : MesosState) (ident : String)
    (hid : env.getIdentity = .ok ident)
    (hsrc : args.sourceOfTruth = "mesos")
    (hfetch : env.mesosFetch args.mesosStateURL = .ok st)
    (hbad : ∃ f ∈ st.frameworks, ∃ ex ∈ f.executors, ∃ t ∈ ex.tasks, t.name = "") :
    (∃ e, parseMesosTasksBody st = .error e) ∧
    (∃ e, GC env args = (some e, [])) := by
  obtain ⟨e, he⟩ := collectFrameworks_error hbad
  have hparse : parseMesosTasksBody st = .error e := he
  refine ⟨⟨e, hparse⟩, ⟨.wrap "Could not fetch running tasks" e, ?_⟩⟩
  have hrun : gcRunningTasks env args = .error e := by
    unfold gcRunningTasks
    rw [hsrc]
    rw [if_neg (by decide), if_pos rfl]
    unfold mesosTasks
    rw [hfetch]
    exact hparse
  unfold GC
  rw [hid, hrun]

/-- A legacy-scheduler document with one framework, one executor and a single
task whose name is empty. -/
def sampleBadMesosState : MesosState := ⟨[⟨[⟨[⟨""⟩]⟩]⟩]⟩

/-- A GC environment whose legacy-scheduler document contains an empty task
name. -/
def sampleMesosEnv : GCEnv :=
  ⟨.ok "instance",
   fun _ => .ok ["A", "B"],
   fun _ => .ok sampleBadMesosState,
   fun _ => .ok [],
   fun t => .ok ⟨t⟩,
   fun a => ⟨a.taskId⟩,
   fun _ => .ok (),
   fun _ => .ok ()⟩

/-- Witness for C6 at the concrete bad document. -/
theorem GC_mesos_empty_name_aborts_witness :
    (∃ e, parseMesosTasksBody sampleBadMesosState = .error e) ∧
    (∃ e, GC sampleMesosEnv ⟨"http://pods", "http://mesos", "mesos"⟩ = (some e, [])) :=
  GC_mesos_empty_name_aborts sampleMesosEnv ⟨"http://pods", "http://mesos", "mesos"⟩
    sampleBadMesosState "instance" rfl rfl rfl (by decide)

/-- C10: an `Args` value whose source of truth is neither `"kubernetes"` nor
`"mesos"` makes `GC` return the `Source of truth ... unknown` error with an
empty call trace: `GCV3`, `GetAssignment` and `UnassignIPV3` are never
invoked. -/
theorem GC_unknown_source_aborts (env : GCEnv) (args : Args) (ident : String)
    (hid : env.getIdentity = .ok ident)
    (hk : args.sourceOfTruth ≠ "kubernetes")
    (hm : args.sourceOfTruth ≠ "mesos") :
    GC env args =
      (some (.wrap "Could not fetch running tasks"
        (.msg ("Source of truth \"" ++ args.sourceOfTruth ++ "\" unknown"))), []) := by
  have hrun : gcRunningTasks env args =
      .error (.msg ("Source of truth \"" ++ args.sourceOfTruth ++ "\" unknown")) := by
    unfold gcRunningTasks
    rw [if_neg hk, if_neg hm]
  unfold GC
  rw [hid, hrun]

/-- Witness for C10 with source of truth `"docker"`. -/
theorem GC_unknown_source_aborts_witness :
    GC sampleMesosEnv ⟨"http://pods", "http://mesos", "docker"⟩ =
      (some (.wrap "Could not fetch running tasks"
        (.msg ("Source of truth \"" ++ "docker" ++ "\" unknown"))), []) :=
  GC_unknown_source_aborts sampleMesosEnv ⟨"http://pods", "http://mesos", "docker"⟩
    "instance" rfl (by decide) (by decide)

/-! ### Loop termination -/

/-- C9 counterexample: when the context is cancelled during the wait, the
loop returns `ctx.Err()` — `some GoError.canceled`, a non-nil Go error — so
the stop is reported as an error, not as a clean (nil-error) stop. -/
theorem deleteExccessBranchesLoop_reports_error :
    (deleteExccessBranchesLoop ⟨"az", "vpc", "acct", "s", "cidr", "r"⟩
        [⟨⟨fun _ => .ok ⟨[], []⟩, fun _ => .ok⟩, .canceled⟩] ⟨[], []⟩).1
      = some (some GoError.canceled) ∧
    some GoError.canceled ≠ (none : Option GoError) :=
  ⟨rfl, fun h => Option.noConfusion h⟩

/-- C9 (amended): the loop returns only when its context is cancelled — a
schedule in which every wait elapses leaves it running — and the stop is
reported by returning the context's cancellation error, which is non-nil. -/
theorem deleteExccessBranchesLoop_stop_spec
    (subnet : Subnet) (sched : List LoopIteration) (db : DBState) :
    ((∀ it ∈ sched, it.wait = .elapsed) →
      (deleteExccessBranchesLoop subnet sched db).1 = none) ∧
    (∀ r, (deleteExccessBranchesLoop subnet sched db).1 = some r →
      (∃ it ∈ sched, it.wait = .canceled) ∧ r = some GoError.canceled) := by
  induction sched generalizing db with
  | nil =>
    exact ⟨fun _ => rfl, fun r hr => Option.noConfusion hr⟩
  | cons it rest ih =>
    constructor
    · intro hall
      have hw : it.wait = .elapsed := hall it (List.mem_cons_self _ _)
      unfold deleteExccessBranchesLoop
      rw [hw]
      show (deleteExccessBranchesLoop subnet rest _).1 = none
      exact (ih _).1 (fun x hx => hall x (List.mem_cons_of_mem _ hx))
    · intro r hr
      unfold deleteExccessBranchesLoop at hr
      cases hwait : it.wait with
      | elapsed =>
        rw [hwait] at hr
        have := (ih (doDeleteExcessBranches it.session subnet db).db).2 r hr
        exact ⟨⟨this.1.choose, List.mem_cons_of_mem _ this.1.choose_spec.1,
          this.1.choose_spec.2⟩, this.2⟩
      | canceled =>
        rw [hwait] at hr
        simp only [waitFor] at hr
        exact ⟨⟨it, List.mem_cons_self _ _, hwait⟩, (Option.some.inj hr).symm⟩

/-- Witness for C9 at one-iteration schedules: an elapsed wait leaves the loop
running; a cancelled wait makes it return the cancellation error. -/
theorem deleteExccessBranchesLoop_stop_spec_witness :
    (deleteExccessBranchesLoop ⟨"az", "vpc", "acct", "s", "cidr", "r"⟩
        [⟨⟨fun _ => .ok ⟨[], []⟩, fun _ => .ok⟩, .elapsed⟩] ⟨[], []⟩).1 = none ∧
    ((∃ it ∈ [(⟨⟨fun _ => .ok ⟨[], []⟩, fun _ => .ok⟩, .canceled⟩ : LoopIteration)],
        it.wait = .canceled) ∧
      (some GoError.canceled : Option GoError) = some GoError.canceled) :=
  ⟨(deleteExccessBranchesLoop_stop_spec ⟨"az", "vpc", "acct", "s", "cidr", "r"⟩
      [⟨⟨fun _ => .ok ⟨[], []⟩, fun _ => .ok⟩, .elapsed⟩] ⟨[], []⟩).1
      (by intro it hit; simp at hit; rw [hit]),
   (deleteExccessBranchesLoop_stop_spec ⟨"az", "vpc", "acct", "s", "cidr", "r"⟩
      [⟨⟨fun _ => .ok ⟨[], []⟩, fun _ => .ok⟩, .canceled⟩] ⟨[], []⟩).2
      (some GoError.canceled) rfl⟩
